import Mathlib

/-!
# dperf-custom: buffer lifecycle (src/mbuf.c) and environment bootstrap (src/dpdk.c)

A shallow embedding of the C functions of `mbuf.c` and `dpdk.c` together with
theorems about them.

Conventions of the embedding.

* A `struct rte_mbuf *` is an address, a natural number; `0` is `NULL`.
* The per-thread `g_mbuf_free_pool`, the `dynfield1[0]` word of every buffer
  and the log of calls into DPDK are fields of an explicit `State`.
* External primitives (`rte_eth_tx_burst`, `rte_eth_rx_burst`,
  `icmp6_is_neigh`, `rte_eal_init`, ...) are function parameters; every call
  to one of them that matters is appended to a trace.
* The only unbounded loop (the retry loop of `zcio_client_mbuf_free`) takes a
  fuel argument; `none` means that the fuel ran out or that the C code would
  have left defined behaviour (a store past the end of the batch array, a
  `NULL` dereference).
* C strings are Lean strings, one character per byte.
-/

namespace Dperf

/-! ## mbuf.c : constants and macros -/

/-- The macro `FREE_MAGIC_NUM` of mbuf.c. -/
def FREE_MAGIC_NUM : Nat := 114514

/-- The macro `ALLOC_NUM(x)` of mbuf.c, `((x) > 32768) ? 0 : ((x) + 32767)`.
Its only argument in the source is a `uint16_t` promoted to `int`, so the sum
cannot overflow. -/
def ALLOC_NUM (x : Nat) : Nat :=
  if x > 32768 then 0 else x + 32767

/-- Conversion of an integer value to `uint16_t`. -/
def to_u16 (x : Nat) : Nat := x % 65536

/-- The fourth argument of the `rte_eth_rx_burst` call in
`zcio_client_mbuf_alloc`: `ALLOC_NUM(nb_pkts)` converted to the `uint16_t`
parameter of the burst primitive. -/
def zcio_client_mbuf_alloc_nb (nb_pkts : Nat) : Nat :=
  to_u16 (ALLOC_NUM nb_pkts)

/-- The function `zcio_client_mbuf_alloc` of mbuf.c. `rte_eth_rx_burst` is
the external receive-burst primitive (port, queue, array address, count) and
returns a `uint16_t`, which the function returns as an `int`. -/
def zcio_client_mbuf_alloc (rte_eth_rx_burst : Nat → Nat → Nat → Nat → Nat)
    (port_id queue_id rx_pkts nb_pkts : Nat) : Int :=
  ((to_u16 (rte_eth_rx_burst port_id queue_id rx_pkts
      (zcio_client_mbuf_alloc_nb nb_pkts)) : Nat) : Int)

/-! ## mbuf.c : neighbour classification -/

/-- Ethernet type of ARP. -/
def ETHER_TYPE_ARP : Nat := 0x0806

/-- Ethernet type of IPv6. -/
def ETHER_TYPE_IPv6 : Nat := 0x86DD

/-- Ethernet type of IPv4. -/
def ETHER_TYPE_IPv4 : Nat := 0x0800

/-- IP protocol number of ICMPv6. -/
def IPPROTO_ICMPV6 : Nat := 58

/-- Host to network byte order on a 16-bit value (little-endian host). -/
def htons (x : Nat) : Nat := (x % 256) * 256 + (x / 256) % 256

/-- The header fields of a packet buffer that `mbuf_is_neigh` reads:
`mbuf_eth_hdr(m)->type` (as stored, network byte order) and
`mbuf_ip6_hdr(m)->ip6_nxt`. -/
structure pkt_hdrs where
  eth_type : Nat
  ip6_nxt : Nat
deriving DecidableEq, Repr

/-- The function `mbuf_is_neigh` of mbuf.c; `icmp6_is_neigh` is the external
ICMPv6 classifier. -/
def mbuf_is_neigh (icmp6_is_neigh : pkt_hdrs → Bool) (m : pkt_hdrs) : Bool :=
  if m.eth_type = htons ETHER_TYPE_ARP then
    true
  else if m.eth_type = htons ETHER_TYPE_IPv6 then
    let proto := m.ip6_nxt
    if proto = IPPROTO_ICMPV6 then
      icmp6_is_neigh m
    else
      false
  else
    false

/-! ## mbuf.c : release of buffers -/

/-- The fields of `struct netif_port` that mbuf.c and dpdk.c read. -/
structure netif_port where
  id : Nat
  is_zcio_client : Bool
  is_vdev : Bool
  vdev_param : String
  pci_num : Int
  pci_list : Nat → String

/-- The fields of `struct work_space` that mbuf.c reads. -/
structure work_space where
  port : netif_port
  queue_id : Nat

/-- The per-thread `struct mbuf_free_pool`: the counter `num` and the array
`pool`, whose declared size is the length of the list. -/
structure mbuf_free_pool where
  num : Nat
  pool : List Nat
deriving DecidableEq, Repr

/-- The arguments of one `rte_eth_tx_burst` call: port, queue, the offset
`sent_num` of the array pointer `tx_pkts + sent_num`, the buffers that the
call offers (`nb` of them from that offset) and the count `nb`. -/
structure tx_call where
  port_id : Nat
  queue_id : Nat
  off : Nat
  pkts : List Nat
  nb : Nat
deriving DecidableEq, Repr

/-- Calls out of mbuf.c that the model records. `zcio_client_mbuf_free`
records its own entry with its arguments (`none` is a `NULL` array). -/
inductive Event where
  | rte_pktmbuf_free (m : Nat)
  | rte_pktmbuf_free_bulk (mbufs : List Nat) (count : Nat)
  | zcio_client_mbuf_free (port_id queue_id : Nat) (tx_pkts : Option (List Nat))
      (nb_pkts : Nat)
  | rte_eth_tx_burst (c : tx_call) (ret : Nat)
deriving DecidableEq, Repr

/-- The state that the release path reads and writes: the calling thread's
`g_mbuf_free_pool`, the word `dynfield1[0]` of the buffer at each address,
the number of `rte_eth_tx_burst` calls made so far, and the trace. -/
structure State where
  g_mbuf_free_pool : mbuf_free_pool
  dynfield1_0 : Nat → Nat
  tx_calls : Nat
  trace : List Event

/-- The transmit-burst primitive as seen by the caller: given the number of
earlier burst calls and the arguments of this one it returns the number of
buffers it accepted. -/
abbrev TxStub := Nat → tx_call → Nat

/-- The first loop of `zcio_client_mbuf_free`, from index `i` for `k` more
rounds: `tx_pkts[i]->dynfield1[0] = FREE_MAGIC_NUM`. -/
def zcio_tag_loop (tx_pkts : List Nat) : Nat → Nat → (Nat → Nat) → Option (Nat → Nat)
  | 0, _, tags => some tags
  | k + 1, i, tags =>
    match tx_pkts.get? i with
    | none => none
    | some p =>
      if p = 0 then none
      else zcio_tag_loop tx_pkts k (i + 1) (fun a => if a = p then FREE_MAGIC_NUM else tags a)

/-- One round of the retry loop of `zcio_client_mbuf_free`:
`ret = rte_eth_tx_burst(port_id, queue_id, tx_pkts + sent_num, avail_num)`,
then `avail_num -= ret` and `sent_num += ret`. The count is converted to the
`uint16_t` parameter of the primitive, whose result is a `uint16_t`. -/
def zcio_tx_round (stub : TxStub) (port_id queue_id : Nat) (tx_pkts : List Nat)
    (avail_num sent_num : Int) (s : State) : State × Int × Int :=
  let nb := to_u16 avail_num.toNat
  let c : tx_call :=
    ⟨port_id, queue_id, sent_num.toNat, (tx_pkts.drop sent_num.toNat).take nb, nb⟩
  let ret := to_u16 (stub s.tx_calls c)
  ({ s with tx_calls := s.tx_calls + 1,
            trace := s.trace ++ [Event.rte_eth_tx_burst c ret] },
    avail_num - ret, sent_num + ret)

/-- The retry loop `while (avail_num > 0)` of `zcio_client_mbuf_free`; it
returns the state and the final `avail_num` and `sent_num`. -/
def zcio_tx_loop (stub : TxStub) (port_id queue_id : Nat) (tx_pkts : List Nat) :
    Nat → Int → Int → State → Option (State × Int × Int)
  | 0, avail_num, sent_num, s =>
    if avail_num > 0 then none else some (s, avail_num, sent_num)
  | fuel + 1, avail_num, sent_num, s =>
    if avail_num > 0 then
      let r := zcio_tx_round stub port_id queue_id tx_pkts avail_num sent_num s
      zcio_tx_loop stub port_id queue_id tx_pkts fuel r.2.1 r.2.2 r.1
    else some (s, avail_num, sent_num)

/-- The function `zcio_client_mbuf_free` of mbuf.c. -/
def zcio_client_mbuf_free (stub : TxStub) (fuel : Nat) (port_id queue_id : Nat)
    (tx_pkts : Option (List Nat)) (nb_pkts : Nat) (s : State) : Option State :=
  let s0 : State :=
    { s with trace := s.trace ++ [Event.zcio_client_mbuf_free port_id queue_id tx_pkts nb_pkts] }
  match tx_pkts with
  | none => some s0
  | some pkts =>
    match zcio_tag_loop pkts nb_pkts 0 s0.dynfield1_0 with
    | none => none
    | some tags =>
      match zcio_tx_loop stub port_id queue_id pkts fuel (nb_pkts : Int) 0
          { s0 with dynfield1_0 := tags } with
      | none => none
      | some r => some r.1

/-- The function `mbuf_free2` of mbuf.c. -/
def mbuf_free2 (stub : TxStub) (fuel : Nat) (ws : work_space) (m : Nat) (s : State) :
    Option State :=
  if m ≠ 0 then
    if s.g_mbuf_free_pool.num < s.g_mbuf_free_pool.pool.length then
      let fp : mbuf_free_pool :=
        ⟨s.g_mbuf_free_pool.num + 1, s.g_mbuf_free_pool.pool.set s.g_mbuf_free_pool.num m⟩
      let s1 : State := { s with g_mbuf_free_pool := fp }
      if fp.num ≥ 64 then
        if !ws.port.is_zcio_client then
          some { s1 with
            trace := s1.trace ++ [Event.rte_pktmbuf_free_bulk fp.pool (fp.num % 4294967296)],
            g_mbuf_free_pool := ⟨0, fp.pool⟩ }
        else
          match zcio_client_mbuf_free stub fuel (to_u16 ws.port.id) (to_u16 ws.queue_id)
              (some fp.pool) (to_u16 fp.num) s1 with
          | none => none
          | some s2 => some { s2 with g_mbuf_free_pool := ⟨0, s2.g_mbuf_free_pool.pool⟩ }
      else some s1
    else none
  else some s

/-- The function `mbuf_free` of mbuf.c. -/
def mbuf_free (stub : TxStub) (fuel : Nat) (ws : work_space) (m : Nat) (s : State) :
    Option State :=
  if !ws.port.is_zcio_client then
    some { s with trace := s.trace ++ [Event.rte_pktmbuf_free m] }
  else
    mbuf_free2 stub fuel ws m s

/-- Successive calls of one release function on the buffers of a list, in
order. -/
def release_seq (free : work_space → Nat → State → Option State) (ws : work_space) :
    List Nat → State → Option State
  | [], s => some s
  | m :: ms, s =>
    match free ws m s with
    | none => none
    | some s1 => release_seq free ws ms s1

/-! ## dpdk.c : environment bootstrap -/

/-- The fields of `struct config` that dpdk.c reads. The arrays `cpu` and
the list of ports walked by `config_for_each_port` are given by content. -/
structure config where
  cpu_num : Int
  cpu : Nat → Int
  ports : List netif_port
  no_cpi : Bool
  log_level : Int
  socket_mem : String
  file_prefix : String
  simd512 : Bool
  flow : Int
  ticks_per_sec : Int

/-- What dpdk.c takes from outside the sources at hand: the constants
`RTE_ARG_LEN` and `FLOW_FDIR` of the missing headers, whether
`RTE_VERSION >= RTE_VERSION_NUM(20, 0, 0, 0)`, the value of `getpid()`, the
global `g_tsc_per_second`, and the results of the external calls. -/
structure Env where
  RTE_ARG_LEN : Nat
  FLOW_FDIR : Int
  rte_version_ge_20 : Bool
  getpid : Int
  g_tsc_per_second : Nat
  rte_eal_init : Int → List String → Int
  port_init_all : config → Int
  port_start_all : config → Int
  kni_start : config → Int
  flow_init : config → Int

/-- Calls out of dpdk.c that the model records, in program order. -/
inductive DpdkEvent where
  | printf (msg : String)
  | rte_vect_set_max_simd_bitwidth
  | rte_eal_init (argc : Int) (argv : List String)
  | rte_pdump_init
  | port_init_all
  | port_start_all
  | kni_start
  | flow_init
  | tick_init (ticks_per_sec : Int)
  | config_set_tsc (tsc : Nat)
deriving DecidableEq, Repr

/-- The conversion `%d` of the printf family. -/
def fmt_d (x : Int) : String := toString x

/-- The call `snprintf(buf, size, ...)` where the format expands to `text`:
the new content of `buf` and the returned length of the full expansion. -/
def snprintf (buf : String) (size : Nat) (text : String) : String × Int :=
  (if size = 0 then buf else ⟨text.data.take (size - 1)⟩, (text.length : Int))

/-- The loop of `dpdk_set_lcores` from index `i`, for at most `k` rounds. -/
def dpdk_set_lcores_loop (cfg : config) : Nat → Int → String → String
  | 0, _, lcores => lcores
  | k + 1, i, lcores =>
    if i < cfg.cpu_num then
      let lcore_buf :=
        if i = 0 then fmt_d i ++ "@(" ++ fmt_d (cfg.cpu i.toNat) ++ ")"
        else "," ++ fmt_d i ++ "@(" ++ fmt_d (cfg.cpu i.toNat) ++ ")"
      dpdk_set_lcores_loop cfg k (i + 1) (lcores ++ lcore_buf)
    else lcores

/-- The function `dpdk_set_lcores` of dpdk.c; the result is the content of
the buffer `lcores` on return. -/
def dpdk_set_lcores (cfg : config) (lcores : String) : String :=
  dpdk_set_lcores_loop cfg cfg.cpu_num.toNat 0 lcores

/-- The inner loop of `dpdk_append_pci` over `port->pci_list`. -/
def dpdk_append_pci_loop (port : netif_port) (flag_pci : String) :
    Nat → Int → Int × List String → Int × List String
  | 0, _, r => r
  | k + 1, i, (num, argv) =>
    if i < port.pci_num then
      dpdk_append_pci_loop port flag_pci k (i + 1)
        (num + 2, argv ++ [flag_pci, port.pci_list i.toNat])
    else (num, argv)

/-- The function `dpdk_append_pci` of dpdk.c. The list `argv` is the part
`argv[0 .. argc)` of the argument vector, so that a store at `argv[argc]`
appends; the result is `num` and the new vector. -/
def dpdk_append_pci (cfg : config) (argv : List String) (flag_pci : String) :
    Int × List String :=
  cfg.ports.foldl
    (fun r port =>
      if port.is_vdev then (r.1 + 1, r.2 ++ [port.vdev_param])
      else dpdk_append_pci_loop port flag_pci port.pci_num.toNat 0 r)
    (0, argv)

/-- The function `dpdk_set_socket_mem` of dpdk.c: the return value and the
contents of the buffers `socket_mem` and `file_prefix` on return. -/
def dpdk_set_socket_mem (env : Env) (cfg : config) (socket_mem : String)
    ( file_prefix : String) : Int × String × String :=
  if cfg.socket_mem.length ≤ 0 then
    (0, socket_mem, file_prefix)
  else
    let r := snprintf socket_mem env.RTE_ARG_LEN ("--socket-mem=" ++ cfg.socket_mem)
    if r.2 ≥ env.RTE_ARG_LEN then
      (-1, r.1, file_prefix)
    else
      let r2 :=
        if cfg.file_prefix = "" then
          snprintf file_prefix env.RTE_ARG_LEN ("--file-prefix=dperf-" ++ fmt_d env.getpid)
        else
          snprintf file_prefix env.RTE_ARG_LEN ("--file-prefix=" ++ cfg.file_prefix)
      if r2.2 ≥ env.RTE_ARG_LEN then
        (-1, r.1, r2.1)
      else
        (0, r.1, r2.1)

/-- The function `dpdk_set_simd_bitwidth` of dpdk.c (both versions). -/
def dpdk_set_simd_bitwidth (env : Env) (cfg : config) : List DpdkEvent :=
  if env.rte_version_ge_20 && cfg.simd512 then [DpdkEvent.rte_vect_set_max_simd_bitwidth]
  else []

/-- The function `dpdk_eal_init` of dpdk.c: the return value and the calls
made. The vector handed to `rte_eal_init` is `argv[0 .. argc)`. -/
def dpdk_eal_init (env : Env) (cfg : config) (argv0 : String) : Int × List DpdkEvent :=
  let flag_pci := if env.rte_version_ge_20 then "-a" else "-w"
  let tele : List String := if env.rte_version_ge_20 then ["--no-telemetry"] else []
  let nopci : List String := if cfg.no_cpi then ["--no-pci"] else []
  let log_level := "--log-level=" ++ fmt_d cfg.log_level
  let sm := dpdk_set_socket_mem env cfg "" ""
  if sm.1 < 0 then
    (-1, [DpdkEvent.printf "dpdk_set_socket_mem fail\n"])
  else
    let lcores := dpdk_set_lcores cfg "--lcores="
    let argv := [argv0, lcores, sm.2.1, sm.2.2, log_level] ++ tele ++ nopci
    let r := dpdk_append_pci cfg argv flag_pci
    let argc : Int := (argv.length : Int) + r.1
    let ev := dpdk_set_simd_bitwidth env cfg ++ [DpdkEvent.rte_eal_init argc r.2]
    if env.rte_eal_init argc r.2 < 0 then
      (-1, ev ++ [DpdkEvent.printf "rte_eal_init fail\n"])
    else
      (0, ev)

/-- The function `dpdk_init` of dpdk.c: the return value and the calls
made. -/
def dpdk_init (env : Env) (cfg : config) (argv0 : String) : Int × List DpdkEvent :=
  let e := dpdk_eal_init env cfg argv0
  if e.1 < 0 then
    (-1, e.2 ++ [DpdkEvent.printf "dpdk_eal_init fail\n"])
  else
    let t1 := e.2 ++ [DpdkEvent.rte_pdump_init, DpdkEvent.port_init_all]
    if env.port_init_all cfg < 0 then
      (-1, t1 ++ [DpdkEvent.printf "port init fail\n"])
    else
      let t2 := t1 ++ [DpdkEvent.port_start_all]
      if env.port_start_all cfg < 0 then
        (-1, t2 ++ [DpdkEvent.printf "start port fail\n"])
      else
        let t3 := t2 ++ [DpdkEvent.kni_start]
        if env.kni_start cfg < 0 then
          (-1, t3 ++ [DpdkEvent.printf "kni start fail\n"])
        else
          let fin (t : List DpdkEvent) : Int × List DpdkEvent :=
            (0, t ++ [DpdkEvent.tick_init cfg.ticks_per_sec,
                      DpdkEvent.config_set_tsc env.g_tsc_per_second])
          if cfg.flow = env.FLOW_FDIR then
            if env.flow_init cfg < 0 then
              (-1, t3 ++ [DpdkEvent.flow_init, DpdkEvent.printf "flow init fail\n"])
            else
              fin (t3 ++ [DpdkEvent.flow_init])
          else
            fin t3

/-! ## Reading the trace -/

/-- The value returned by a recorded `rte_eth_tx_burst` call (0 for any
other event). -/
def Event.tx_ret : Event → Nat
  | Event.rte_eth_tx_burst _ ret => ret
  | _ => 0

/-- Whether an event returns buffers to their pool directly
(`rte_pktmbuf_free` or `rte_pktmbuf_free_bulk`). -/
def Event.is_pool_free : Event → Bool
  | Event.rte_pktmbuf_free _ => true
  | Event.rte_pktmbuf_free_bulk _ _ => true
  | _ => false

/-- Whether an event is a call of `rte_eth_tx_burst` on the given port and
queue. -/
def Event.is_tx_burst_on (port_id queue_id : Nat) : Event → Bool
  | Event.rte_eth_tx_burst c _ => c.port_id = port_id && c.queue_id = queue_id
  | _ => false

/-- The burst call that `zcio_client_mbuf_free` issues on an array of `n`
buffers once `acc` of them have been accepted. -/
def tx_call_at (port_id queue_id : Nat) (tx_pkts : List Nat) (n acc : Nat) : tx_call :=
  ⟨port_id, queue_id, acc, (tx_pkts.drop acc).take (n - acc), n - acc⟩

/-- The number of buffers that the stub has accepted after `k` burst calls
of `zcio_client_mbuf_free` on an array of `n` buffers, when `k0` burst calls
were made before. -/
def accepted_after (stub : TxStub) (port_id queue_id : Nat) (tx_pkts : List Nat)
    (n k0 : Nat) : Nat → Nat
  | 0 => 0
  | k + 1 =>
    accepted_after stub port_id queue_id tx_pkts n k0 k +
      stub (k0 + k)
        (tx_call_at port_id queue_id tx_pkts n
          (accepted_after stub port_id queue_id tx_pkts n k0 k))

/-- The `i`-th burst call of that run together with its result, as the
trace records it. -/
def tx_event_at (stub : TxStub) (port_id queue_id : Nat) (tx_pkts : List Nat)
    (n k0 i : Nat) : Event :=
  Event.rte_eth_tx_burst
    (tx_call_at port_id queue_id tx_pkts n
      (accepted_after stub port_id queue_id tx_pkts n k0 i))
    (stub (k0 + i)
      (tx_call_at port_id queue_id tx_pkts n
        (accepted_after stub port_id queue_id tx_pkts n k0 i)))

/-- The text `i@(cpu[i])` of one entry of the core-mapping flag. -/
def lcore_entry (cfg : config) (i : Nat) : String :=
  fmt_d (i : Int) ++ "@(" ++ fmt_d (cfg.cpu i) ++ ")"

/-! ## Concrete inputs used by the closed statements below -/

/-- A work space on port 1, queue 0; the flag says whether the port is a
zero-copy client. -/
def ws_of (zc : Bool) : work_space :=
  ⟨⟨1, zc, false, "", 0, fun _ => ""⟩, 0⟩

/-- A state with an empty batch of capacity 64, all tags 0 and an empty
trace. -/
def st_empty : State :=
  ⟨⟨0, List.replicate 64 0⟩, fun _ => 0, 0, []⟩

/-- A transmit stub that accepts everything it is offered. -/
def stub_all : TxStub := fun _ c => c.nb

/-- A transmit stub that accepts at most 3, then at most 5, then all that it
is offered. -/
def stub_3_5_rest : TxStub :=
  fun k c => min c.nb (if k = 0 then 3 else if k = 1 then 5 else c.nb)

/-- A configuration with three cores, no port, no socket-memory string and
no file-prefix string. -/
def cfg_plain : config :=
  { cpu_num := 3, cpu := fun i => [2, 4, 6].getD i 0, ports := [], no_cpi := false,
    log_level := 7, socket_mem := "", file_prefix := "", simd512 := false, flow := 0,
    ticks_per_sec := 1000 }

/-- The configuration `cfg_plain` with a socket-memory string of 69
characters. -/
def cfg_long_socket_mem : config :=
  { cfg_plain with
    socket_mem := "1024,1024,1024,1024,1024,1024,1024,1024,1024,1024,1024,1024,1024,1024" }

/-- The configuration `cfg_plain` with the socket-memory string `1024,1024`. -/
def cfg_socket_mem : config :=
  { cfg_plain with socket_mem := "1024,1024" }

/-- An environment with `RTE_ARG_LEN = 64`, a recent DPDK, process id 1234,
in which every external call succeeds. -/
def env_ok : Env :=
  { RTE_ARG_LEN := 64, FLOW_FDIR := 2, rte_version_ge_20 := true, getpid := 1234,
    g_tsc_per_second := 1, rte_eal_init := fun _ _ => 0, port_init_all := fun _ => 0,
    port_start_all := fun _ => 0, kni_start := fun _ => 0, flow_init := fun _ => 0 }

/-! ## Theorems -/

/-! ### `ALLOC_NUM` and `zcio_client_mbuf_alloc` -/

/-- C4, as stated, fails at `requested = 100`: the count handed to
`rte_eth_rx_burst` is 32867, which is not a multiple of 32768. -/
theorem alloc_count_100_not_aligned :
    (100 : Nat) ≤ 32768 ∧ zcio_client_mbuf_alloc_nb 100 = 32867 ∧
      ¬ (32768 ∣ zcio_client_mbuf_alloc_nb 100) := by
  decide

/-- C4 (amended): for a requested count `n ≤ 32768` the count handed to
`rte_eth_rx_burst` is exactly `n + 32767`: it is at least `n`, it fits in 16
bits without wrapping, it is a multiple of 32768 only for `n = 1`, and the
function returns what the burst primitive returns for that count. -/
theorem alloc_count_small (n : Nat) (h : n ≤ 32768) :
    zcio_client_mbuf_alloc_nb n = n + 32767 ∧
      n ≤ zcio_client_mbuf_alloc_nb n ∧
      zcio_client_mbuf_alloc_nb n < 65536 ∧
      (32768 ∣ zcio_client_mbuf_alloc_nb n ↔ n = 1) ∧
      ∀ (rx : Nat → Nat → Nat → Nat → Nat) (port_id queue_id rx_pkts : Nat),
        zcio_client_mbuf_alloc rx port_id queue_id rx_pkts n
          = ((to_u16 (rx port_id queue_id rx_pkts (n + 32767)) : Nat) : Int) := by
  have hnb : zcio_client_mbuf_alloc_nb n = n + 32767 := by
    unfold zcio_client_mbuf_alloc_nb ALLOC_NUM to_u16
    rw [if_neg (by omega)]
    omega
  refine ⟨hnb, by omega, by omega, ?_, ?_⟩
  · rw [hnb]
    constructor
    · intro hd
      obtain ⟨c, hc⟩ := hd
      omega
    · intro h1
      subst h1
      exact ⟨1, by norm_num⟩
  · intro rx port_id queue_id rx_pkts
    unfold zcio_client_mbuf_alloc
    rw [hnb]

/-- Witness of `alloc_count_small` at `requested = 100`. -/
theorem alloc_count_small_witness :
    (100 : Nat) ≤ 32768 ∧ zcio_client_mbuf_alloc_nb 100 = 100 + 32767 :=
  ⟨by decide, (alloc_count_small 100 (by decide)).1⟩

/-- C5: for a requested count above 32768 the count handed to
`rte_eth_rx_burst` is 0, and `zcio_client_mbuf_alloc` returns the value that
the burst primitive returns for that call (a `uint16_t`, widened to `int`). -/
theorem alloc_count_large (n : Nat) (h : 32768 < n) :
    zcio_client_mbuf_alloc_nb n = 0 ∧
      ∀ (rx : Nat → Nat → Nat → Nat → Nat) (port_id queue_id rx_pkts : Nat),
        zcio_client_mbuf_alloc rx port_id queue_id rx_pkts n
            = ((to_u16 (rx port_id queue_id rx_pkts 0) : Nat) : Int) ∧
          (rx port_id queue_id rx_pkts 0 < 65536 →
            zcio_client_mbuf_alloc rx port_id queue_id rx_pkts n
              = ((rx port_id queue_id rx_pkts 0 : Nat) : Int)) := by
  have hnb : zcio_client_mbuf_alloc_nb n = 0 := by
    unfold zcio_client_mbuf_alloc_nb ALLOC_NUM to_u16
    rw [if_pos h]
  refine ⟨hnb, ?_⟩
  intro rx port_id queue_id rx_pkts
  unfold zcio_client_mbuf_alloc
  rw [hnb]
  refine ⟨rfl, ?_⟩
  intro hlt
  unfold to_u16
  rw [Nat.mod_eq_of_lt hlt]

/-- Witness of `alloc_count_large` at `requested = 40000`. -/
theorem alloc_count_large_witness :
    (32768 : Nat) < 40000 ∧ zcio_client_mbuf_alloc_nb 40000 = 0 :=
  ⟨by decide, (alloc_count_large 40000 (by decide)).1⟩

/-! ### `mbuf_is_neigh` -/

/-- C9: `mbuf_is_neigh` is true exactly when the Ethernet type is ARP, or
the Ethernet type is IPv6, the next header is ICMPv6 and `icmp6_is_neigh`
says so; hence true for ARP and for IPv6/ICMPv6 neighbour discovery, false
for other ICMPv6, for IPv6 with another next header and for IPv4. -/
theorem mbuf_is_neigh_spec (icmp6_is_neigh : pkt_hdrs → Bool) (m : pkt_hdrs) :
    (mbuf_is_neigh icmp6_is_neigh m = true ↔
        (m.eth_type = htons ETHER_TYPE_ARP ∨
          (m.eth_type = htons ETHER_TYPE_IPv6 ∧ m.ip6_nxt = IPPROTO_ICMPV6 ∧
            icmp6_is_neigh m = true))) ∧
      (m.eth_type = htons ETHER_TYPE_ARP → mbuf_is_neigh icmp6_is_neigh m = true) ∧
      (m.eth_type = htons ETHER_TYPE_IPv6 → m.ip6_nxt = IPPROTO_ICMPV6 →
        icmp6_is_neigh m = true → mbuf_is_neigh icmp6_is_neigh m = true) ∧
      (m.eth_type = htons ETHER_TYPE_IPv6 → m.ip6_nxt = IPPROTO_ICMPV6 →
        icmp6_is_neigh m = false → mbuf_is_neigh icmp6_is_neigh m = false) ∧
      (m.eth_type = htons ETHER_TYPE_IPv6 → m.ip6_nxt ≠ IPPROTO_ICMPV6 →
        mbuf_is_neigh icmp6_is_neigh m = false) ∧
      (m.eth_type = htons ETHER_TYPE_IPv4 → mbuf_is_neigh icmp6_is_neigh m = false) := by
  have h64 : htons ETHER_TYPE_IPv6 ≠ htons ETHER_TYPE_ARP := by decide
  have h46 : htons ETHER_TYPE_IPv4 ≠ htons ETHER_TYPE_IPv6 := by decide
  have h4a : htons ETHER_TYPE_IPv4 ≠ htons ETHER_TYPE_ARP := by decide
  refine ⟨?_, ?_, ?_, ?_, ?_, ?_⟩
  · unfold mbuf_is_neigh
    by_cases ha : m.eth_type = htons ETHER_TYPE_ARP
    · simp [ha]
    · by_cases h6 : m.eth_type = htons ETHER_TYPE_IPv6
      · by_cases hp : m.ip6_nxt = IPPROTO_ICMPV6
        · simp [h6, hp, h64]
        · simp [h6, hp, h64]
      · simp [ha, h6]
  · intro ha
    simp [mbuf_is_neigh, ha]
  · intro h6 hp hi
    simp [mbuf_is_neigh, h6, hp, hi, h64]
  · intro h6 hp hi
    simp [mbuf_is_neigh, h6, hp, hi, h64]
  · intro h6 hp
    simp [mbuf_is_neigh, h6, hp, h64]
  · intro h4
    simp [mbuf_is_neigh, h4, h4a, h46]

/-- Witness of `mbuf_is_neigh_spec`: an ARP buffer is classified as
neighbour traffic even when the ICMPv6 classifier always answers no. -/
theorem mbuf_is_neigh_spec_witness :
    (⟨htons ETHER_TYPE_ARP, 0⟩ : pkt_hdrs).eth_type = htons ETHER_TYPE_ARP ∧
      mbuf_is_neigh (fun _ => false) ⟨htons ETHER_TYPE_ARP, 0⟩ = true :=
  ⟨rfl, (mbuf_is_neigh_spec (fun _ => false) ⟨htons ETHER_TYPE_ARP, 0⟩).2.1 rfl⟩

/-! ### The release path: auxiliary facts -/

theorem zcio_tx_loop_frame (stub : TxStub) (port_id queue_id : Nat) (tx_pkts : List Nat) :
    ∀ (fuel : Nat) (avail_num sent_num : Int) (s : State) (r : State × Int × Int),
      zcio_tx_loop stub port_id queue_id tx_pkts fuel avail_num sent_num s = some r →
      r.1.g_mbuf_free_pool = s.g_mbuf_free_pool ∧ r.1.dynfield1_0 = s.dynfield1_0 ∧
        r.2.1 ≤ 0 ∧
        ∃ es, r.1.trace = s.trace ++ es ∧
          ∀ e ∈ es, e.is_tx_burst_on port_id queue_id = true := by
  intro fuel
  induction fuel with
  | zero =>
    intro avail_num sent_num s r h
    unfold zcio_tx_loop at h
    by_cases ha : avail_num > 0
    · simp [ha] at h
    · simp only [ha, if_false, Option.some.injEq] at h
      subst h
      exact ⟨rfl, rfl, by simpa using ha, [], by simp, by simp⟩
  | succ fuel ih =>
    intro avail_num sent_num s r h
    unfold zcio_tx_loop at h
    by_cases ha : avail_num > 0
    · simp only [ha, if_true] at h
      obtain ⟨h1, h2, h3, es, h4, h5⟩ := ih _ _ _ _ h
      refine ⟨h1, h2, h3,
        (zcio_tx_round stub port_id queue_id tx_pkts avail_num sent_num s).1.trace.drop
          s.trace.length ++ es, ?_, ?_⟩
      · rw [h4]
        simp [zcio_tx_round]
      · intro e he
        rcases List.mem_append.mp he with he | he
        · simp [zcio_tx_round] at he
          subst he
          simp [Event.is_tx_burst_on]
        · exact h5 e he
    · simp only [ha, if_false, Option.some.injEq] at h
      subst h
      exact ⟨rfl, rfl, by simpa using ha, [], by simp, by simp⟩

theorem zcio_tag_loop_ok (pkts : List Nat) :
    ∀ (k i : Nat) (tags : Nat → Nat), i + k ≤ pkts.length →
      (∀ b ∈ (pkts.drop i).take k, b ≠ 0) →
      ∃ tags1, zcio_tag_loop pkts k i tags = some tags1 ∧
        ∀ a, tags1 a = if a ∈ (pkts.drop i).take k then FREE_MAGIC_NUM else tags a := by
  intro k
  induction k with
  | zero =>
    intro i tags _ _
    exact ⟨tags, rfl, by simp⟩
  | succ k ih =>
    intro i tags hlen hnn
    have hi : i < pkts.length := by omega
    have hdrop : (pkts.drop i).take (k + 1) = pkts[i] :: (pkts.drop (i + 1)).take k := by
      rw [List.drop_eq_getElem_cons hi, List.take_succ_cons]
    rw [hdrop] at hnn
    have hp : pkts[i] ≠ 0 := hnn _ (List.mem_cons_self _ _)
    obtain ⟨tags1, h1, h2⟩ :=
      ih (i + 1) (fun a => if a = pkts[i] then FREE_MAGIC_NUM else tags a) (by omega)
        (fun b hb => hnn b (List.mem_cons_of_mem _ hb))
    refine ⟨tags1, ?_, ?_⟩
    · unfold zcio_tag_loop
      rw [List.get?_eq_getElem?, List.getElem?_eq_getElem hi]
      simp only [hp, if_false]
      exact h1
    · intro a
      rw [h2 a, hdrop]
      by_cases ha : a ∈ (pkts.drop (i + 1)).take k
      · simp [ha]
      · by_cases hap : a = pkts[i]
        · simp [hap]
        · simp [ha, hap]

theorem release_seq_append (free : work_space → Nat → State → Option State)
    (ws : work_space) :
    ∀ (xs ys : List Nat) (s : State),
      release_seq free ws (xs ++ ys) s
        = (release_seq free ws xs s).bind (release_seq free ws ys) := by
  intro xs
  induction xs with
  | nil => intro ys s; rfl
  | cons x xs ih =>
    intro ys s
    simp only [List.cons_append, release_seq]
    cases free ws x s with
    | none => rfl
    | some s1 => exact ih ys s1

theorem mbuf_free2_push (stub : TxStub) (fuel : Nat) (ws : work_space) (m : Nat) (s : State)
    (hm : m ≠ 0) (hn : s.g_mbuf_free_pool.num + 1 < 64)
    (hcap : s.g_mbuf_free_pool.num < s.g_mbuf_free_pool.pool.length) :
    mbuf_free2 stub fuel ws m s
      = some { s with g_mbuf_free_pool :=
          ⟨s.g_mbuf_free_pool.num + 1, s.g_mbuf_free_pool.pool.set s.g_mbuf_free_pool.num m⟩ } := by
  unfold mbuf_free2
  simp only [hm, ne_eq, not_false_eq_true, if_true, hcap]
  rw [if_neg (by omega)]

theorem release_seq_push (stub : TxStub) (fuel : Nat) (ws : work_space) :
    ∀ (bufs : List Nat) (s : State), (∀ b ∈ bufs, b ≠ 0) →
      s.g_mbuf_free_pool.num + bufs.length < 64 →
      s.g_mbuf_free_pool.num + bufs.length ≤ s.g_mbuf_free_pool.pool.length →
      ∃ s1, release_seq (mbuf_free2 stub fuel) ws bufs s = some s1 ∧
        s1.g_mbuf_free_pool.num = s.g_mbuf_free_pool.num + bufs.length ∧
        s1.g_mbuf_free_pool.pool
          = s.g_mbuf_free_pool.pool.take s.g_mbuf_free_pool.num ++ bufs ++
              s.g_mbuf_free_pool.pool.drop (s.g_mbuf_free_pool.num + bufs.length) ∧
        s1.trace = s.trace ∧ s1.dynfield1_0 = s.dynfield1_0 ∧ s1.tx_calls = s.tx_calls := by
  intro bufs
  induction bufs with
  | nil =>
    intro s _ _ _
    exact ⟨s, rfl, rfl, by simp, rfl, rfl, rfl⟩
  | cons b bufs ih =>
    intro s hnn hn hcap
    simp only [List.length_cons] at hn hcap
    have hb : b ≠ 0 := hnn b (List.mem_cons_self _ _)
    have hlt : s.g_mbuf_free_pool.num < s.g_mbuf_free_pool.pool.length := by omega
    have hstep := mbuf_free2_push stub fuel ws b s hb (by omega) hlt
    obtain ⟨s1, h1, h2, h3, h4, h5, h6⟩ :=
      ih { s with g_mbuf_free_pool :=
            ⟨s.g_mbuf_free_pool.num + 1,
              s.g_mbuf_free_pool.pool.set s.g_mbuf_free_pool.num b⟩ }
        (fun x hx => hnn x (List.mem_cons_of_mem _ hx))
        (by simp only; omega) (by simp only [List.length_set]; omega)
    refine ⟨s1, ?_, ?_, ?_, h4, h5, h6⟩
    · simp only [release_seq, hstep]
      exact h1
    · rw [h2]
      simp only [List.length_cons]
      omega
    · rw [h3]
      simp only
      rw [List.set_eq_take_append_cons_drop, if_pos hlt]
      have hsplit : s.g_mbuf_free_pool.pool.take s.g_mbuf_free_pool.num ++
          b :: s.g_mbuf_free_pool.pool.drop (s.g_mbuf_free_pool.num + 1)
          = (s.g_mbuf_free_pool.pool.take s.g_mbuf_free_pool.num ++ [b]) ++
              s.g_mbuf_free_pool.pool.drop (s.g_mbuf_free_pool.num + 1) := by simp
      have hl : (s.g_mbuf_free_pool.pool.take s.g_mbuf_free_pool.num ++ [b]).length
          = s.g_mbuf_free_pool.num + 1 := by
        simp [List.length_take, Nat.min_eq_left (Nat.le_of_lt hlt)]
      rw [hsplit, List.take_left' hl, ← hl, List.drop_append, List.drop_drop, hl]
      have e3 : s.g_mbuf_free_pool.num + 1 + bufs.length
          = s.g_mbuf_free_pool.num + (bufs.length + 1) := by omega
      rw [e3]
      simp

theorem set_append_at (init rest : List Nat) (x : Nat) :
    (init ++ rest).set init.length x = init ++ rest.set 0 x := by
  induction init with
  | nil => rfl
  | cons a init ih => simp [ih]

/-- From an empty batch, the first 63 of 64 non-null buffers are stored
without any call; storing the last one fills the array prefix with the 64
buffers in call order. -/
theorem release_seq_first_63 (stub : TxStub) (fuel : Nat) (ws : work_space) (s : State)
    (bufs : List Nat) (hnum : s.g_mbuf_free_pool.num = 0)
    (hcap : 64 ≤ s.g_mbuf_free_pool.pool.length) (hlen : bufs.length = 64)
    (hnn : ∀ b ∈ bufs, b ≠ 0) :
    ∃ s63 last, bufs = bufs.dropLast ++ [last] ∧ last ≠ 0 ∧
      release_seq (mbuf_free2 stub fuel) ws bufs.dropLast s = some s63 ∧
      s63.g_mbuf_free_pool.num = 63 ∧
      63 < s63.g_mbuf_free_pool.pool.length ∧
      s63.g_mbuf_free_pool.pool.set 63 last = bufs ++ s.g_mbuf_free_pool.pool.drop 64 ∧
      s63.trace = s.trace ∧ s63.dynfield1_0 = s.dynfield1_0 ∧ s63.tx_calls = s.tx_calls := by
  have hne : bufs ≠ [] := by
    intro h
    rw [h] at hlen
    simp at hlen
  have hsplit : bufs = bufs.dropLast ++ [bufs.getLast hne] :=
    (List.dropLast_append_getLast hne).symm
  have hdl : bufs.dropLast.length = 63 := by
    rw [List.length_dropLast, hlen]
  have hlast : bufs.getLast hne ≠ 0 := hnn _ (List.getLast_mem hne)
  obtain ⟨s63, h1, h2, h3, h4, h5, h6⟩ :=
    release_seq_push stub fuel ws bufs.dropLast s
      (fun b hb => hnn b (List.mem_of_mem_dropLast hb))
      (by rw [hnum, hdl]; decide) (by rw [hnum, hdl]; omega)
  rw [hnum, hdl] at h2 h3
  simp only [List.take_zero, List.nil_append, Nat.zero_add] at h3 h2
  have hlen63 : 63 < s63.g_mbuf_free_pool.pool.length := by
    rw [h3, List.length_append, hdl, List.length_drop]
    omega
  refine ⟨s63, bufs.getLast hne, hsplit, hlast, h1, h2, hlen63, ?_, h4, h5, h6⟩
  rw [h3]
  have hs := set_append_at bufs.dropLast (s.g_mbuf_free_pool.pool.drop 63) (bufs.getLast hne)
  rw [hdl] at hs
  rw [hs]
  have hd : s.g_mbuf_free_pool.pool.drop 63
      = s.g_mbuf_free_pool.pool[63] :: s.g_mbuf_free_pool.pool.drop 64 :=
    List.drop_eq_getElem_cons (by omega)
  rw [hd, List.set_cons_zero]
  conv_rhs => rw [hsplit]
  simp

theorem zcio_client_mbuf_free_frame (stub : TxStub) (fuel port_id queue_id : Nat)
    (pkts : List Nat) (nb_pkts : Nat) (s s2 : State)
    (h : zcio_client_mbuf_free stub fuel port_id queue_id (some pkts) nb_pkts s = some s2) :
    ∃ tags, zcio_tag_loop pkts nb_pkts 0 s.dynfield1_0 = some tags ∧
      s2.dynfield1_0 = tags ∧ s2.g_mbuf_free_pool = s.g_mbuf_free_pool ∧
      ∃ es, s2.trace
          = s.trace ++ Event.zcio_client_mbuf_free port_id queue_id (some pkts) nb_pkts :: es ∧
        ∀ e ∈ es, e.is_tx_burst_on port_id queue_id = true := by
  unfold zcio_client_mbuf_free at h
  simp only at h
  cases htag : zcio_tag_loop pkts nb_pkts 0 s.dynfield1_0 with
  | none => simp [htag] at h
  | some tags =>
    simp only [htag] at h
    split at h
    · simp at h
    · rename_i r hr
      simp only [Option.some.injEq] at h
      obtain ⟨h1, h2, _, es, h4, h5⟩ := zcio_tx_loop_frame _ _ _ _ _ _ _ _ _ hr
      subst h
      refine ⟨tags, rfl, h2, h1, es, ?_, h5⟩
      rw [h4]
      simp

theorem mbuf_free2_zcio_flush (stub : TxStub) (fuel : Nat) (ws : work_space) (m : Nat)
    (s : State) (hm : m ≠ 0)
    (hc : s.g_mbuf_free_pool.num < s.g_mbuf_free_pool.pool.length)
    (h64 : 64 ≤ s.g_mbuf_free_pool.num + 1) (hz : ws.port.is_zcio_client = true) :
    mbuf_free2 stub fuel ws m s
      = (zcio_client_mbuf_free stub fuel (to_u16 ws.port.id) (to_u16 ws.queue_id)
          (some (s.g_mbuf_free_pool.pool.set s.g_mbuf_free_pool.num m))
          (to_u16 (s.g_mbuf_free_pool.num + 1))
          { s with g_mbuf_free_pool :=
              ⟨s.g_mbuf_free_pool.num + 1,
                s.g_mbuf_free_pool.pool.set s.g_mbuf_free_pool.num m⟩ }).map
          (fun s2 => { s2 with g_mbuf_free_pool := ⟨0, s2.g_mbuf_free_pool.pool⟩ }) := by
  unfold mbuf_free2
  simp only [hm, ne_eq, not_false_eq_true, if_true, hc, hz, Bool.not_true, ge_iff_le, h64,
    Bool.false_eq_true, if_false]
  cases zcio_client_mbuf_free stub fuel (to_u16 ws.port.id) (to_u16 ws.queue_id)
      (some (s.g_mbuf_free_pool.pool.set s.g_mbuf_free_pool.num m))
      (to_u16 (s.g_mbuf_free_pool.num + 1))
      { s with g_mbuf_free_pool :=
          ⟨s.g_mbuf_free_pool.num + 1,
            s.g_mbuf_free_pool.pool.set s.g_mbuf_free_pool.num m⟩ } <;> rfl

/-! ### Release on a port that is not a zero-copy client -/

/-- C1: on a port that is not a zero-copy client, from an empty batch, 64
`mbuf_free2` calls on non-null buffers make no call during the first 63,
call `rte_pktmbuf_free_bulk` exactly once, on the 64th, with count 64 and
those 64 buffers in call order, and leave `num = 0`; a 65th call makes no
further call (no bulk free, no transmit) and leaves a batch of size 1 that
holds that buffer. -/
theorem mbuf_free2_bulk_at_64 (stub : TxStub) (fuel : Nat) (ws : work_space) (s : State)
    (bufs : List Nat) (b65 : Nat)
    (hz : ws.port.is_zcio_client = false)
    (hnum : s.g_mbuf_free_pool.num = 0)
    (hcap : 64 ≤ s.g_mbuf_free_pool.pool.length)
    (hlen : bufs.length = 64) (hnn : ∀ b ∈ bufs, b ≠ 0) (h65 : b65 ≠ 0) :
    (∀ k, k < 64 →
      ∃ sk, release_seq (mbuf_free2 stub fuel) ws (bufs.take k) s = some sk ∧
        sk.trace = s.trace ∧ sk.g_mbuf_free_pool.num = k ∧
        sk.g_mbuf_free_pool.pool.take k = bufs.take k) ∧
    ∃ s64 arr, release_seq (mbuf_free2 stub fuel) ws bufs s = some s64 ∧
      s64.trace = s.trace ++ [Event.rte_pktmbuf_free_bulk arr 64] ∧
      arr.take 64 = bufs ∧
      s64.g_mbuf_free_pool.num = 0 ∧
      s64.dynfield1_0 = s.dynfield1_0 ∧
      ∃ s65, mbuf_free2 stub fuel ws b65 s64 = some s65 ∧
        s65.trace = s64.trace ∧
        s65.g_mbuf_free_pool.num = 1 ∧
        s65.g_mbuf_free_pool.pool.take 1 = [b65] := by
  constructor
  · intro k hk
    have hkl : (bufs.take k).length = k := by
      rw [List.length_take, hlen]
      omega
    obtain ⟨sk, h1, h2, h3, h4, _, _⟩ :=
      release_seq_push stub fuel ws (bufs.take k) s
        (fun b hb => hnn b (List.mem_of_mem_take hb))
        (by rw [hnum, hkl]; omega) (by rw [hnum, hkl]; omega)
    rw [hnum, hkl] at h2 h3
    simp only [List.take_zero, List.nil_append, Nat.zero_add] at h2 h3
    refine ⟨sk, h1, h4, h2, ?_⟩
    rw [h3]
    exact List.take_left' hkl
  · obtain ⟨s63, last, hsplit, hlast, h1, h2, h3, h4, h5, h6, _⟩ :=
      release_seq_first_63 stub fuel ws s bufs hnum hcap hlen hnn
    have hstep : mbuf_free2 stub fuel ws last s63
        = some { s63 with
            trace := s63.trace ++
              [Event.rte_pktmbuf_free_bulk (s63.g_mbuf_free_pool.pool.set 63 last) 64],
            g_mbuf_free_pool := ⟨0, s63.g_mbuf_free_pool.pool.set 63 last⟩ } := by
      unfold mbuf_free2
      simp [hlast, h2, h3, hz]
    have hrun : release_seq (mbuf_free2 stub fuel) ws bufs s
        = some { s63 with
            trace := s63.trace ++
              [Event.rte_pktmbuf_free_bulk (s63.g_mbuf_free_pool.pool.set 63 last) 64],
            g_mbuf_free_pool := ⟨0, s63.g_mbuf_free_pool.pool.set 63 last⟩ } := by
      conv_lhs => rw [hsplit]
      rw [release_seq_append, h1]
      simp only [Option.bind, release_seq, hstep]
    refine ⟨_, s63.g_mbuf_free_pool.pool.set 63 last, hrun, ?_, ?_, rfl, h6, ?_⟩
    · simp only [h5]
    · rw [h4]
      exact List.take_left' hlen
    · have hlen64 : 0 < (s63.g_mbuf_free_pool.pool.set 63 last).length := by
        rw [List.length_set]
        omega
      refine ⟨_, mbuf_free2_push stub fuel ws b65 _ h65 (by simp) (by simpa using hlen64),
        rfl, rfl, ?_⟩
      simp only
      cases hp : s63.g_mbuf_free_pool.pool.set 63 last with
      | nil => rw [hp] at hlen64; simp at hlen64
      | cons a l => simp

/-- Witness of `mbuf_free2_bulk_at_64`: the buffers with addresses 1 to 64,
then the buffer 65, on an empty batch of capacity 64. -/
theorem mbuf_free2_bulk_at_64_witness :
    (ws_of false).port.is_zcio_client = false ∧ st_empty.g_mbuf_free_pool.num = 0 ∧
      (List.range' 1 64).length = 64 ∧
      ∃ s64 arr, release_seq (mbuf_free2 stub_all 0) (ws_of false) (List.range' 1 64) st_empty
          = some s64 ∧
        s64.trace = st_empty.trace ++ [Event.rte_pktmbuf_free_bulk arr 64] ∧
        arr.take 64 = List.range' 1 64 ∧
        s64.g_mbuf_free_pool.num = 0 ∧
        s64.dynfield1_0 = st_empty.dynfield1_0 ∧
        ∃ s65, mbuf_free2 stub_all 0 (ws_of false) 65 s64 = some s65 ∧
          s65.trace = s64.trace ∧
          s65.g_mbuf_free_pool.num = 1 ∧
          s65.g_mbuf_free_pool.pool.take 1 = [65] :=
  ⟨rfl, rfl, by decide,
    (mbuf_free2_bulk_at_64 stub_all 0 (ws_of false) st_empty (List.range' 1 64) 65 rfl rfl
      (by decide) (by decide) (by decide) (by decide)).2⟩

/-! ### The entry point `mbuf_free` -/

/-- C10: `mbuf_free` dispatches on the port kind. On a port that is not a
zero-copy client it calls `rte_pktmbuf_free` on the buffer and changes
nothing else (batch, tags, transmit calls). On a zero-copy client it is
`mbuf_free2`: a null buffer changes nothing, and no call it makes returns a
buffer to its pool directly. -/
theorem mbuf_free_dispatch (stub : TxStub) (fuel : Nat) (ws : work_space) (m : Nat)
    (s : State) :
    (ws.port.is_zcio_client = false →
      mbuf_free stub fuel ws m s
        = some { s with trace := s.trace ++ [Event.rte_pktmbuf_free m] }) ∧
    (ws.port.is_zcio_client = true →
      mbuf_free stub fuel ws m s = mbuf_free2 stub fuel ws m s ∧
      (m = 0 → mbuf_free stub fuel ws m s = some s) ∧
      ∀ s1, mbuf_free stub fuel ws m s = some s1 →
        ∃ es, s1.trace = s.trace ++ es ∧ ∀ e ∈ es, e.is_pool_free = false) := by
  constructor
  · intro hz
    simp [mbuf_free, hz]
  · intro hz
    have heq : mbuf_free stub fuel ws m s = mbuf_free2 stub fuel ws m s := by
      simp [mbuf_free, hz]
    refine ⟨heq, ?_, ?_⟩
    · intro hm
      rw [heq]
      simp [mbuf_free2, hm]
    · intro s1 h1
      rw [heq] at h1
      by_cases hm : m = 0
      · simp only [mbuf_free2, hm, ne_eq, not_true_eq_false, if_false, Option.some.injEq] at h1
        subst h1
        exact ⟨[], by simp, by simp⟩
      · by_cases hc : s.g_mbuf_free_pool.num < s.g_mbuf_free_pool.pool.length
        · by_cases h64 : 64 ≤ s.g_mbuf_free_pool.num + 1
          · rw [mbuf_free2_zcio_flush stub fuel ws m s hm hc h64 hz] at h1
            obtain ⟨s2, hs2, rfl⟩ := Option.map_eq_some'.mp h1
            obtain ⟨_, _, _, _, es, h4, h5⟩ :=
              zcio_client_mbuf_free_frame _ _ _ _ _ _ _ _ hs2
            refine ⟨_ :: es, h4, ?_⟩
            intro e he
            rcases List.mem_cons.mp he with rfl | he
            · rfl
            · have := h5 e he
              cases e <;> simp_all [Event.is_tx_burst_on, Event.is_pool_free]
          · rw [mbuf_free2_push stub fuel ws m s hm (by omega) hc] at h1
            simp only [Option.some.injEq] at h1
            subst h1
            exact ⟨[], by simp, by simp⟩
        · simp [mbuf_free2, hm, hc] at h1

/-! ### The retry loop of `zcio_client_mbuf_free` -/

theorem accepted_after_le (stub : TxStub) (port_id queue_id : Nat) (tx_pkts : List Nat)
    (n k0 : Nat) (hb : ∀ k c, stub k c ≤ c.nb) :
    ∀ k, accepted_after stub port_id queue_id tx_pkts n k0 k ≤ n := by
  intro k
  induction k with
  | zero => exact Nat.zero_le _
  | succ k ih =>
    have h := hb (k0 + k) (tx_call_at port_id queue_id tx_pkts n
      (accepted_after stub port_id queue_id tx_pkts n k0 k))
    simp only [tx_call_at] at h
    simp only [accepted_after, tx_call_at]
    omega

theorem zcio_tx_round_eq (stub : TxStub) (port_id queue_id : Nat) (tx_pkts : List Nat)
    (n a : Nat) (s1 : State) (hn : n < 65536) (ha : a ≤ n)
    (hb : stub s1.tx_calls (tx_call_at port_id queue_id tx_pkts n a) ≤ n - a) :
    zcio_tx_round stub port_id queue_id tx_pkts ((n : Int) - (a : Int)) (a : Int) s1
      = ({ s1 with
            tx_calls := s1.tx_calls + 1,
            trace := s1.trace ++
              [Event.rte_eth_tx_burst (tx_call_at port_id queue_id tx_pkts n a)
                (stub s1.tx_calls (tx_call_at port_id queue_id tx_pkts n a))] },
          (n : Int) - ((a + stub s1.tx_calls (tx_call_at port_id queue_id tx_pkts n a) : Nat) : Int),
          ((a + stub s1.tx_calls (tx_call_at port_id queue_id tx_pkts n a) : Nat) : Int)) := by
  have e1 : ((n : Int) - (a : Int)).toNat = n - a := by omega
  have e2 : to_u16 (n - a) = n - a := Nat.mod_eq_of_lt (by omega)
  have e3 : ((a : Int)).toNat = a := Int.toNat_ofNat a
  have e4 : to_u16 (stub s1.tx_calls (tx_call_at port_id queue_id tx_pkts n a))
      = stub s1.tx_calls (tx_call_at port_id queue_id tx_pkts n a) :=
    Nat.mod_eq_of_lt (by omega)
  unfold zcio_tx_round
  simp only [e1, e2, e3]
  have e5 : (⟨port_id, queue_id, a, (tx_pkts.drop a).take (n - a), n - a⟩ : tx_call)
      = tx_call_at port_id queue_id tx_pkts n a := rfl
  rw [e5, e4]
  refine Prod.ext rfl (Prod.ext ?_ ?_)
  · simp only
    omega
  · simp only
    omega

theorem zcio_tx_loop_done (stub : TxStub) (port_id queue_id : Nat) (tx_pkts : List Nat)
    (fuel : Nat) (sent_num : Int) (s : State) :
    zcio_tx_loop stub port_id queue_id tx_pkts fuel 0 sent_num s = some (s, 0, sent_num) := by
  cases fuel <;> simp [zcio_tx_loop]

theorem zcio_tx_loop_run (stub : TxStub) (port_id queue_id : Nat) (tx_pkts : List Nat)
    (n k0 : Nat) (hn : n < 65536) (hb : ∀ k c, stub k c ≤ c.nb) :
    ∀ (d k : Nat) (s1 : State), s1.tx_calls = k0 + k →
      accepted_after stub port_id queue_id tx_pkts n k0 (k + d) = n →
      ∃ j s2, j ≤ d ∧ accepted_after stub port_id queue_id tx_pkts n k0 (k + j) = n ∧
        (∀ fuel, j ≤ fuel →
          zcio_tx_loop stub port_id queue_id tx_pkts fuel
              ((n : Int) - (accepted_after stub port_id queue_id tx_pkts n k0 k : Nat))
              (accepted_after stub port_id queue_id tx_pkts n k0 k : Nat) s1
            = some (s2, 0, (n : Int))) ∧
        s2.trace = s1.trace ++
          (List.range' k j).map (tx_event_at stub port_id queue_id tx_pkts n k0) ∧
        s2.g_mbuf_free_pool = s1.g_mbuf_free_pool ∧
        s2.dynfield1_0 = s1.dynfield1_0 := by
  have hdone : ∀ (k : Nat) (s1 : State),
      accepted_after stub port_id queue_id tx_pkts n k0 k = n →
      (∀ fuel, 0 ≤ fuel →
        zcio_tx_loop stub port_id queue_id tx_pkts fuel
            ((n : Int) - (accepted_after stub port_id queue_id tx_pkts n k0 k : Nat))
            (accepted_after stub port_id queue_id tx_pkts n k0 k : Nat) s1
          = some (s1, 0, (n : Int))) ∧
        s1.trace = s1.trace ++
          (List.range' k 0).map (tx_event_at stub port_id queue_id tx_pkts n k0) ∧
        s1.g_mbuf_free_pool = s1.g_mbuf_free_pool ∧
        s1.dynfield1_0 = s1.dynfield1_0 := by
    intro k s1 hk
    refine ⟨?_, by simp, rfl, rfl⟩
    intro fuel _
    rw [hk, sub_self]
    exact zcio_tx_loop_done _ _ _ _ _ _ _
  intro d
  induction d with
  | zero =>
    intro k s1 _ hk
    exact ⟨0, s1, Nat.le_refl _, hk, hdone k s1 hk⟩
  | succ d ih =>
    intro k s1 hs1 hk
    by_cases hfin : accepted_after stub port_id queue_id tx_pkts n k0 k = n
    · exact ⟨0, s1, Nat.zero_le _, hfin, hdone k s1 hfin⟩
    · have hle := accepted_after_le stub port_id queue_id tx_pkts n k0 hb k
      have hbk := hb (k0 + k) (tx_call_at port_id queue_id tx_pkts n
        (accepted_after stub port_id queue_id tx_pkts n k0 k))
      have hbk2 : stub s1.tx_calls (tx_call_at port_id queue_id tx_pkts n
          (accepted_after stub port_id queue_id tx_pkts n k0 k))
          ≤ n - accepted_after stub port_id queue_id tx_pkts n k0 k := by
        rw [hs1]
        exact hbk
      have hround := zcio_tx_round_eq stub port_id queue_id tx_pkts n
        (accepted_after stub port_id queue_id tx_pkts n k0 k) s1 hn hle hbk2
      rw [hs1] at hround
      have hacc : accepted_after stub port_id queue_id tx_pkts n k0 k +
          stub (k0 + k) (tx_call_at port_id queue_id tx_pkts n
            (accepted_after stub port_id queue_id tx_pkts n k0 k))
          = accepted_after stub port_id queue_id tx_pkts n k0 (k + 1) := rfl
      rw [hacc] at hround
      obtain ⟨j, s2, hj, hjn, hrun, h2, h3, h4⟩ :=
        ih (k + 1)
          { s1 with
            tx_calls := k0 + k + 1,
            trace := s1.trace ++ [tx_event_at stub port_id queue_id tx_pkts n k0 k] }
          (by simp only; omega)
          (by rw [← hk]; congr 1; omega)
      refine ⟨j + 1, s2, by omega, by rw [← hjn]; congr 1; omega, ?_, ?_, h3, h4⟩
      · intro fuel hfuel
        obtain ⟨f, rfl⟩ : ∃ f, fuel = f + 1 := ⟨fuel - 1, by omega⟩
        unfold zcio_tx_loop
        have hpos : ((n : Int) - (accepted_after stub port_id queue_id tx_pkts n k0 k : Nat)) > 0 := by
          omega
        simp only [hpos, if_true, hround]
        exact hrun f (by omega)
      · rw [h2, List.range'_succ]
        simp

theorem tx_ret_sum_range (stub : TxStub) (port_id queue_id : Nat) (tx_pkts : List Nat)
    (n k0 : Nat) :
    ∀ i, (((List.range i).map (tx_event_at stub port_id queue_id tx_pkts n k0)).map
        Event.tx_ret).sum
      = accepted_after stub port_id queue_id tx_pkts n k0 i := by
  intro i
  induction i with
  | zero => rfl
  | succ i ih =>
    rw [List.range_succ, List.map_append, List.map_append, List.sum_append, ih]
    rfl

theorem tx_events_indexed (stub : TxStub) (port_id queue_id : Nat) (tx_pkts : List Nat)
    (n k0 j i : Nat) (hi : i < j) :
    ((List.range j).map (tx_event_at stub port_id queue_id tx_pkts n k0))[i]?
        = some (tx_event_at stub port_id queue_id tx_pkts n k0 i) ∧
      ((((List.range j).map (tx_event_at stub port_id queue_id tx_pkts n k0)).take i).map
          Event.tx_ret).sum
        = accepted_after stub port_id queue_id tx_pkts n k0 i := by
  constructor
  · rw [List.getElem?_map, List.getElem?_range hi]
    rfl
  · rw [← List.map_take, List.take_range, Nat.min_eq_left (Nat.le_of_lt hi)]
    exact tx_ret_sum_range stub port_id queue_id tx_pkts n k0 i

theorem zcio_client_mbuf_free_run (stub : TxStub) (port_id queue_id : Nat)
    (tx_pkts : List Nat) (n : Nat) (s : State)
    (hlen : n ≤ tx_pkts.length) (hn : n < 65536) (hnn : ∀ b ∈ tx_pkts.take n, b ≠ 0)
    (hb : ∀ k c, stub k c ≤ c.nb)
    (hsum : ∃ K, accepted_after stub port_id queue_id tx_pkts n s.tx_calls K = n) :
    ∃ fuel0 s1 es,
      (∀ fuel, fuel0 ≤ fuel →
        zcio_client_mbuf_free stub fuel port_id queue_id (some tx_pkts) n s = some s1) ∧
      s1.trace
        = s.trace ++ Event.zcio_client_mbuf_free port_id queue_id (some tx_pkts) n :: es ∧
      (∀ i, i < es.length →
        ∃ off c, off = ((es.take i).map Event.tx_ret).sum ∧
          c = (⟨port_id, queue_id, off, (tx_pkts.drop off).take (n - off), n - off⟩ : tx_call) ∧
          es[i]? = some (Event.rte_eth_tx_burst c (stub (s.tx_calls + i) c))) ∧
      (es.map Event.tx_ret).sum = n ∧
      (∀ s0 : State, s0.tx_calls = s.tx_calls → ∀ fuel, fuel0 ≤ fuel →
        ∃ s2, zcio_tx_loop stub port_id queue_id tx_pkts fuel (n : Int) 0 s0
          = some (s2, 0, (n : Int))) := by
  obtain ⟨K, hK⟩ := hsum
  obtain ⟨tags, htag, _⟩ :=
    zcio_tag_loop_ok tx_pkts n 0 s.dynfield1_0 (by omega)
      (fun b hb0 => hnn b (by simpa using hb0))
  have hloop : ∀ s0 : State, s0.tx_calls = s.tx_calls →
      ∃ j s2, j ≤ K ∧ accepted_after stub port_id queue_id tx_pkts n s.tx_calls j = n ∧
        (∀ fuel, j ≤ fuel →
          zcio_tx_loop stub port_id queue_id tx_pkts fuel (n : Int) 0 s0
            = some (s2, 0, (n : Int))) ∧
        s2.trace = s0.trace ++
          (List.range j).map (tx_event_at stub port_id queue_id tx_pkts n s.tx_calls) := by
    intro s0 hs0
    obtain ⟨j, s2, hj, hjn, hrun, h2, _, _⟩ :=
      zcio_tx_loop_run stub port_id queue_id tx_pkts n s.tx_calls hn hb K 0 s0
        (by rw [hs0]; rfl) (by rw [Nat.zero_add]; exact hK)
    rw [Nat.zero_add] at hjn
    simp only [accepted_after, Nat.cast_zero, sub_zero] at hrun
    exact ⟨j, s2, hj, hjn, hrun, by rw [h2, List.range_eq_range']⟩
  obtain ⟨j, s1, hjK, hjn, hrun, htr⟩ :=
    hloop { s with
      trace := s.trace ++ [Event.zcio_client_mbuf_free port_id queue_id (some tx_pkts) n],
      dynfield1_0 := tags } rfl
  refine ⟨K, s1, (List.range j).map (tx_event_at stub port_id queue_id tx_pkts n s.tx_calls),
    ?_, ?_, ?_, ?_, ?_⟩
  · intro fuel hfuel
    unfold zcio_client_mbuf_free
    simp only [htag, hrun fuel (by omega)]
  · rw [htr]
    simp
  · intro i hi
    rw [List.length_map, List.length_range] at hi
    obtain ⟨h1, h2⟩ := tx_events_indexed stub port_id queue_id tx_pkts n s.tx_calls j i hi
    refine ⟨_, _, rfl, rfl, ?_⟩
    rw [h1, h2]
    rfl
  · rw [tx_ret_sum_range, hjn]
  · intro s0 hs0 fuel hfuel
    obtain ⟨j0, s2, hj0, _, hrun0, _⟩ := hloop s0 hs0
    exact ⟨s2, hrun0 fuel (by omega)⟩

/-- C3: for an array of `n` valid buffers and a transmit stub that never
accepts more than it is offered and whose accepted counts eventually sum to
`n`, `zcio_client_mbuf_free` returns (for every fuel from some bound on, with
the same result); the `i`-th burst call is issued at the offset equal to the
total accepted by the earlier calls, with count `n` minus that total; the
accepted counts sum to exactly `n`, and the loop ends with `avail_num = 0`
and `sent_num = n`. -/
theorem zcio_client_mbuf_free_hands_off_all (stub : TxStub) (port_id queue_id : Nat)
    (tx_pkts : List Nat) (n : Nat) (s : State)
    (hlen : tx_pkts.length = n) (hn : n < 65536) (hnn : ∀ b ∈ tx_pkts, b ≠ 0)
    (hb : ∀ k c, stub k c ≤ c.nb)
    (hsum : ∃ K, accepted_after stub port_id queue_id tx_pkts n s.tx_calls K = n) :
    ∃ fuel0 s1 es,
      (∀ fuel, fuel0 ≤ fuel →
        zcio_client_mbuf_free stub fuel port_id queue_id (some tx_pkts) n s = some s1) ∧
      s1.trace
        = s.trace ++ Event.zcio_client_mbuf_free port_id queue_id (some tx_pkts) n :: es ∧
      (∀ i, i < es.length →
        ∃ off c, off = ((es.take i).map Event.tx_ret).sum ∧
          c = (⟨port_id, queue_id, off, (tx_pkts.drop off).take (n - off), n - off⟩ : tx_call) ∧
          es[i]? = some (Event.rte_eth_tx_burst c (stub (s.tx_calls + i) c))) ∧
      (es.map Event.tx_ret).sum = n ∧
      (∀ s0 : State, s0.tx_calls = s.tx_calls → ∀ fuel, fuel0 ≤ fuel →
        ∃ s2, zcio_tx_loop stub port_id queue_id tx_pkts fuel (n : Int) 0 s0
          = some (s2, 0, (n : Int))) := by
  exact zcio_client_mbuf_free_run stub port_id queue_id tx_pkts n s (Nat.le_of_eq hlen.symm)
    hn (fun b hb0 => hnn b (List.mem_of_mem_take hb0)) hb hsum

/-- Witness of `zcio_client_mbuf_free_hands_off_all`: ten buffers and a stub
that accepts 3, then 5, then the remaining 2. -/
theorem zcio_client_mbuf_free_hands_off_all_witness :
    (List.range' 1 10).length = 10 ∧
      accepted_after stub_3_5_rest 1 0 (List.range' 1 10) 10 st_empty.tx_calls 3 = 10 ∧
      ∃ fuel0 s1 es,
        (∀ fuel, fuel0 ≤ fuel →
          zcio_client_mbuf_free stub_3_5_rest fuel 1 0 (some (List.range' 1 10)) 10 st_empty
            = some s1) ∧
        s1.trace
          = st_empty.trace ++
              Event.zcio_client_mbuf_free 1 0 (some (List.range' 1 10)) 10 :: es ∧
        (∀ i, i < es.length →
          ∃ off c, off = ((es.take i).map Event.tx_ret).sum ∧
            c = (⟨1, 0, off, ((List.range' 1 10).drop off).take (10 - off), 10 - off⟩ :
              tx_call) ∧
            es[i]? = some (Event.rte_eth_tx_burst c
              (stub_3_5_rest (st_empty.tx_calls + i) c))) ∧
        (es.map Event.tx_ret).sum = 10 ∧
        (∀ s0 : State, s0.tx_calls = st_empty.tx_calls → ∀ fuel, fuel0 ≤ fuel →
          ∃ s2, zcio_tx_loop stub_3_5_rest 1 0 (List.range' 1 10) fuel (10 : Int) 0 s0
            = some (s2, 0, (10 : Int))) :=
  ⟨by decide, by decide,
    zcio_client_mbuf_free_hands_off_all stub_3_5_rest 1 0 (List.range' 1 10) 10 st_empty
      (by decide) (by decide) (by decide)
      (fun _ c => Nat.min_le_left _ _) ⟨3, by decide⟩⟩

/-! ### Release on a zero-copy client port -/

theorem release_seq_congr (f g : work_space → Nat → State → Option State) (ws : work_space)
    (h : ∀ m s, f ws m s = g ws m s) :
    ∀ (l : List Nat) (s : State), release_seq f ws l s = release_seq g ws l s := by
  intro l
  induction l with
  | nil => intro s; rfl
  | cons m l ih =>
    intro s
    simp only [release_seq, h m s]
    cases g ws m s with
    | none => rfl
    | some s1 => exact ih s1

theorem tx_call_at_congr (port_id queue_id : Nat) (xs ys : List Nat) (n a : Nat)
    (h : xs.take n = ys.take n) :
    tx_call_at port_id queue_id xs n a = tx_call_at port_id queue_id ys n a := by
  unfold tx_call_at
  rw [← List.drop_take, ← List.drop_take, h]

theorem accepted_after_congr (stub : TxStub) (port_id queue_id : Nat) (xs ys : List Nat)
    (n k0 : Nat) (h : xs.take n = ys.take n) :
    ∀ k, accepted_after stub port_id queue_id xs n k0 k
      = accepted_after stub port_id queue_id ys n k0 k := by
  intro k
  induction k with
  | zero => rfl
  | succ k ih =>
    simp only [accepted_after]
    rw [ih, tx_call_at_congr port_id queue_id xs ys n _ h]

theorem State_eq_of_fields (a b : State) (h1 : a.g_mbuf_free_pool = b.g_mbuf_free_pool)
    (h2 : a.dynfield1_0 = b.dynfield1_0) (h3 : a.tx_calls = b.tx_calls)
    (h4 : a.trace = b.trace) : a = b := by
  cases a
  cases b
  simp_all

theorem is_tx_burst_on_not_pool_free (port_id queue_id : Nat) (e : Event)
    (h : e.is_tx_burst_on port_id queue_id = true) : e.is_pool_free = false := by
  cases e <;> simp_all [Event.is_tx_burst_on, Event.is_pool_free]

/-- C2: on a zero-copy client port, from an empty batch, 64 `mbuf_free`
calls (the same as 64 `mbuf_free2` calls) on non-null buffers, once they have
returned, leave every one of the 64 buffers tagged `FREE_MAGIC_NUM`, the
batch empty, and a trace extended by exactly one `zcio_client_mbuf_free`
call, with the port id, the queue id and the 64 buffers in call order,
followed only by its `rte_eth_tx_burst` calls on that port and queue: no
buffer is returned to its pool. The calls do return when the transmit stub
never accepts more than offered and its accepted counts on the batch
eventually sum to 64. -/
theorem mbuf_free_zcio_at_64 (stub : TxStub) (ws : work_space) (s : State)
    (bufs : List Nat)
    (hz : ws.port.is_zcio_client = true)
    (hid : ws.port.id < 65536) (hq : ws.queue_id < 65536)
    (hnum : s.g_mbuf_free_pool.num = 0)
    (hcap : 64 ≤ s.g_mbuf_free_pool.pool.length)
    (hlen : bufs.length = 64) (hnn : ∀ b ∈ bufs, b ≠ 0) :
    (∀ fuel, release_seq (mbuf_free stub fuel) ws bufs s
        = release_seq (mbuf_free2 stub fuel) ws bufs s) ∧
    (∀ fuel s1, release_seq (mbuf_free stub fuel) ws bufs s = some s1 →
      (∀ b ∈ bufs, s1.dynfield1_0 b = FREE_MAGIC_NUM) ∧
      s1.g_mbuf_free_pool.num = 0 ∧
      ∃ arr es, arr.take 64 = bufs ∧
        s1.trace = s.trace ++
          Event.zcio_client_mbuf_free ws.port.id ws.queue_id (some arr) 64 :: es ∧
        (∀ e ∈ es, e.is_tx_burst_on ws.port.id ws.queue_id = true) ∧
        (∀ e ∈ es, e.is_pool_free = false)) ∧
    ((∀ k c, stub k c ≤ c.nb) →
      (∃ K, accepted_after stub ws.port.id ws.queue_id bufs 64 s.tx_calls K = 64) →
      ∃ fuel0 s1, ∀ fuel, fuel0 ≤ fuel →
        release_seq (mbuf_free stub fuel) ws bufs s = some s1) := by
  have heq : ∀ fuel, release_seq (mbuf_free stub fuel) ws bufs s
      = release_seq (mbuf_free2 stub fuel) ws bufs s := by
    intro fuel
    apply release_seq_congr
    intro m s0
    simp [mbuf_free, hz]
  have hpid : to_u16 ws.port.id = ws.port.id := Nat.mod_eq_of_lt hid
  have hqid : to_u16 ws.queue_id = ws.queue_id := Nat.mod_eq_of_lt hq
  have h64 : to_u16 (63 + 1) = 64 := rfl
  -- the run up to the flush, for any fuel
  have hrun : ∀ fuel,
      release_seq (mbuf_free2 stub fuel) ws bufs s
        = (zcio_client_mbuf_free stub fuel ws.port.id ws.queue_id
            (some (bufs ++ s.g_mbuf_free_pool.pool.drop 64)) 64
            { s with g_mbuf_free_pool := ⟨64, bufs ++ s.g_mbuf_free_pool.pool.drop 64⟩ }).map
            (fun s2 => { s2 with g_mbuf_free_pool := ⟨0, s2.g_mbuf_free_pool.pool⟩ }) := by
    intro fuel
    obtain ⟨s63, last, hsplit, hlast, h1, h2, h3, h4, h5, h6, h7⟩ :=
      release_seq_first_63 stub fuel ws s bufs hnum hcap hlen hnn
    conv_lhs => rw [hsplit]
    rw [release_seq_append, h1]
    simp only [Option.bind, release_seq]
    rw [mbuf_free2_zcio_flush stub fuel ws last s63 hlast (by rw [h2]; exact h3)
      (by rw [h2]) hz]
    simp only [h2, h4, hpid, hqid, h64]
    have hst : ({ s63 with
          g_mbuf_free_pool := ⟨63 + 1, bufs ++ s.g_mbuf_free_pool.pool.drop 64⟩ } : State)
        = { s with g_mbuf_free_pool := ⟨64, bufs ++ s.g_mbuf_free_pool.pool.drop 64⟩ } :=
      State_eq_of_fields _ _ rfl h6 h7 h5
    rw [hst]
    cases zcio_client_mbuf_free stub fuel ws.port.id ws.queue_id
        (some (bufs ++ s.g_mbuf_free_pool.pool.drop 64)) 64
        { s with g_mbuf_free_pool := ⟨64, bufs ++ s.g_mbuf_free_pool.pool.drop 64⟩ } <;> rfl
  have htake : (bufs ++ s.g_mbuf_free_pool.pool.drop 64).take 64 = bufs :=
    List.take_left' hlen
  refine ⟨heq, ?_, ?_⟩
  · intro fuel s1 hs1
    rw [heq, hrun fuel] at hs1
    obtain ⟨s2, hs2, rfl⟩ := Option.map_eq_some'.mp hs1
    obtain ⟨tags, htag, hd2, _, es, htr, hes⟩ :=
      zcio_client_mbuf_free_frame _ _ _ _ _ _ _ _ hs2
    obtain ⟨tags1, htag1, hchar⟩ :=
      zcio_tag_loop_ok (bufs ++ s.g_mbuf_free_pool.pool.drop 64) 64 0 s.dynfield1_0
        (by rw [List.length_append, hlen]; omega)
        (by
          intro b hb
          rw [List.drop_zero, htake] at hb
          exact hnn b hb)
    rw [htag] at htag1
    have htt : tags = tags1 := Option.some.inj htag1
    refine ⟨?_, rfl, bufs ++ s.g_mbuf_free_pool.pool.drop 64, es, htake, htr, hes, ?_⟩
    · intro b hb
      show s2.dynfield1_0 b = FREE_MAGIC_NUM
      rw [hd2, htt, hchar b, List.drop_zero, htake, if_pos hb]
    · intro e he
      exact is_tx_burst_on_not_pool_free _ _ e (hes e he)
  · intro hb hsum
    obtain ⟨K, hK⟩ := hsum
    have hcongr := accepted_after_congr stub ws.port.id ws.queue_id
      (bufs ++ s.g_mbuf_free_pool.pool.drop 64) bufs 64 s.tx_calls
      (by rw [htake, List.take_of_length_le (Nat.le_of_eq hlen)]) K
    obtain ⟨fuel0, s2, _, hfuel, _⟩ :=
      zcio_client_mbuf_free_run stub ws.port.id ws.queue_id
        (bufs ++ s.g_mbuf_free_pool.pool.drop 64) 64
        { s with g_mbuf_free_pool := ⟨64, bufs ++ s.g_mbuf_free_pool.pool.drop 64⟩ }
        (by rw [List.length_append, hlen]; omega) (by decide)
        (by
          intro b hb0
          rw [htake] at hb0
          exact hnn b hb0)
        hb ⟨K, hcongr.trans hK⟩
    refine ⟨fuel0, { s2 with g_mbuf_free_pool := ⟨0, s2.g_mbuf_free_pool.pool⟩ }, ?_⟩
    intro fuel hf
    rw [heq, hrun fuel, hfuel fuel hf]
    rfl

/-- Witness of `mbuf_free_zcio_at_64`: the buffers with addresses 1 to 64 on
port 1, queue 0, with a stub that accepts all it is offered. -/
theorem mbuf_free_zcio_at_64_witness :
    (ws_of true).port.is_zcio_client = true ∧ st_empty.g_mbuf_free_pool.num = 0 ∧
      (List.range' 1 64).length = 64 ∧
      accepted_after stub_all (ws_of true).port.id (ws_of true).queue_id (List.range' 1 64) 64
        st_empty.tx_calls 1 = 64 ∧
      ∃ fuel0 s1, ∀ fuel, fuel0 ≤ fuel →
        release_seq (mbuf_free stub_all fuel) (ws_of true) (List.range' 1 64) st_empty
          = some s1 :=
  ⟨rfl, rfl, by decide, by decide,
    (mbuf_free_zcio_at_64 stub_all (ws_of true) st_empty (List.range' 1 64) rfl (by decide)
      (by decide) rfl (by decide) (by decide) (by decide)).2.2
      (fun _ _ => Nat.le_refl _) ⟨1, by decide⟩⟩

/-- Witness of `mbuf_free_dispatch`: one buffer released on a port that is
not a zero-copy client. -/
theorem mbuf_free_dispatch_witness :
    (ws_of false).port.is_zcio_client = false ∧
      mbuf_free stub_all 0 (ws_of false) 7 st_empty
        = some { st_empty with trace := st_empty.trace ++ [Event.rte_pktmbuf_free 7] } :=
  ⟨rfl, (mbuf_free_dispatch stub_all 0 (ws_of false) 7 st_empty).1 rfl⟩

/-! ### `dpdk_set_lcores` -/

theorem intercalate_go_append (p sep : String) :
    ∀ (l : List String) (acc : String),
      String.intercalate.go (p ++ acc) sep l = p ++ String.intercalate.go acc sep l := by
  intro l
  induction l with
  | nil => intro acc; rfl
  | cons a l ih =>
    intro acc
    simp only [String.intercalate.go]
    rw [← ih, String.append_assoc, String.append_assoc, String.append_assoc]

theorem dpdk_set_lcores_loop_eq (cfg : config) :
    ∀ (k i : Nat) (acc : String), 1 ≤ i → (i : Int) + k ≤ cfg.cpu_num →
      dpdk_set_lcores_loop cfg k (i : Int) acc
        = String.intercalate.go acc "," ((List.range' i k).map (lcore_entry cfg)) := by
  intro k
  induction k with
  | zero => intro i acc _ _; rfl
  | succ k ih =>
    intro i acc hi hle
    have hlt : (i : Int) < cfg.cpu_num := by omega
    have hne : ¬ ((i : Int) = 0) := by omega
    have hih := ih (i + 1)
      (acc ++ ("," ++ fmt_d (i : Int) ++ "@(" ++ fmt_d (cfg.cpu (i : Int).toNat) ++ ")"))
      (by omega) (by push_cast; omega)
    rw [List.range'_succ, List.map_cons]
    simp only [dpdk_set_lcores_loop, hlt, if_true, hne, if_false, String.intercalate.go]
    rw [Nat.cast_add, Nat.cast_one] at hih
    rw [hih]
    simp only [lcore_entry, Int.toNat_ofNat, String.append_assoc]

/-- C7: the flag that `dpdk_set_lcores` builds from the text `--lcores=` is
`--lcores=` followed by the entries `i@(cpu[i])` for `i = 0, ..., N-1` in
that order, separated by commas: exactly `N` entries, one per core, with
pairwise distinct indices. -/
theorem dpdk_set_lcores_spec (cfg : config) (h : 1 ≤ cfg.cpu_num) :
    dpdk_set_lcores cfg "--lcores="
        = "--lcores=" ++
            ",".intercalate ((List.range cfg.cpu_num.toNat).map (lcore_entry cfg)) ∧
      ((List.range cfg.cpu_num.toNat).map (lcore_entry cfg)).length = cfg.cpu_num.toNat ∧
      (List.range cfg.cpu_num.toNat).Nodup ∧
      (cfg.cpu_num.toNat : Int) = cfg.cpu_num := by
  refine ⟨?_, by simp, List.nodup_range _, Int.toNat_of_nonneg (by omega)⟩
  obtain ⟨n, hn⟩ : ∃ n, cfg.cpu_num.toNat = n + 1 := ⟨cfg.cpu_num.toNat - 1, by omega⟩
  have hpos : (0 : Int) < cfg.cpu_num := by omega
  have hloop := dpdk_set_lcores_loop_eq cfg n 1
    ("--lcores=" ++ (fmt_d (0 : Int) ++ "@(" ++ fmt_d (cfg.cpu (0 : Int).toNat) ++ ")"))
    (Nat.le_refl 1) (by omega)
  rw [Nat.cast_one] at hloop
  unfold dpdk_set_lcores
  rw [hn, List.range_eq_range', List.range'_succ, List.map_cons]
  simp only [dpdk_set_lcores_loop, hpos, if_true, zero_add, String.intercalate]
  rw [hloop, intercalate_go_append]
  rfl

/-- Witness of `dpdk_set_lcores_spec`: three cores bound to the physical
cores 2, 4 and 6. -/
theorem dpdk_set_lcores_spec_witness :
    (1 : Int) ≤ cfg_plain.cpu_num ∧
      dpdk_set_lcores cfg_plain "--lcores=" = "--lcores=0@(2),1@(4),2@(6)" :=
  ⟨by decide, (dpdk_set_lcores_spec cfg_plain (by decide)).1.trans (by decide)⟩

/-! ### `dpdk_set_socket_mem`, `dpdk_eal_init` and `dpdk_init` -/

theorem snprintf_fits (buf text : String) (size : Nat) (h : text.length < size) :
    snprintf buf size text = (text, (text.length : Int)) := by
  unfold snprintf
  have hs : size ≠ 0 := by omega
  have ht : text.data.take (size - 1) = text.data :=
    List.take_of_length_le (by
      have : text.data.length = text.length := rfl
      omega)
  simp only [hs, if_false, ht]

theorem dpdk_set_socket_mem_overflow (env : Env) (cfg : config) (a b : String)
    (hbare : "--socket-mem=".length < env.RTE_ARG_LEN)
    (hover : env.RTE_ARG_LEN ≤ ("--socket-mem=" ++ cfg.socket_mem).length) :
    (dpdk_set_socket_mem env cfg a b).1 = -1 := by
  have hlen : ¬ (cfg.socket_mem.length ≤ 0) := by
    rw [String.length_append] at hover
    omega
  have hge : (snprintf a env.RTE_ARG_LEN ("--socket-mem=" ++ cfg.socket_mem)).2
      ≥ (env.RTE_ARG_LEN : Int) := by
    simp only [snprintf]
    exact_mod_cast hover
  unfold dpdk_set_socket_mem
  simp only [hlen, if_false, hge, if_true]

theorem dpdk_set_socket_mem_ok (env : Env) (cfg : config) (a b : String)
    (hsm : 0 < cfg.socket_mem.length)
    (hfit1 : ("--socket-mem=" ++ cfg.socket_mem).length < env.RTE_ARG_LEN)
    (hfit2 : (if cfg.file_prefix = "" then "--file-prefix=dperf-" ++ fmt_d env.getpid
        else "--file-prefix=" ++ cfg.file_prefix).length < env.RTE_ARG_LEN) :
    dpdk_set_socket_mem env cfg a b
      = (0, "--socket-mem=" ++ cfg.socket_mem,
          if cfg.file_prefix = "" then "--file-prefix=dperf-" ++ fmt_d env.getpid
          else "--file-prefix=" ++ cfg.file_prefix) := by
  have hlen : ¬ (cfg.socket_mem.length ≤ 0) := by omega
  have h1 : ¬ (((("--socket-mem=" ++ cfg.socket_mem).length : Nat) : Int)
      ≥ (env.RTE_ARG_LEN : Int)) := by
    omega
  unfold dpdk_set_socket_mem
  simp only [hlen, if_false, snprintf_fits _ _ _ hfit1, h1]
  by_cases hp : cfg.file_prefix = ""
  · simp only [hp, if_true] at hfit2 ⊢
    have h2 : ¬ (((("--file-prefix=dperf-" ++ fmt_d env.getpid).length : Nat) : Int)
        ≥ (env.RTE_ARG_LEN : Int)) := by
      omega
    simp only [snprintf_fits _ _ _ hfit2, h2, if_false]
  · simp only [hp, if_false] at hfit2 ⊢
    have h2 : ¬ (((("--file-prefix=" ++ cfg.file_prefix).length : Nat) : Int)
        ≥ (env.RTE_ARG_LEN : Int)) := by
      omega
    simp only [snprintf_fits _ _ _ hfit2, h2, if_false]

theorem dpdk_append_pci_loop_prefix (port : netif_port) (flag_pci : String) :
    ∀ (k : Nat) (i : Int) (r : Int × List String),
      ∃ tail, (dpdk_append_pci_loop port flag_pci k i r).2 = r.2 ++ tail := by
  intro k
  induction k with
  | zero => intro i r; exact ⟨[], by simp [dpdk_append_pci_loop]⟩
  | succ k ih =>
    intro i r
    obtain ⟨num, argv⟩ := r
    unfold dpdk_append_pci_loop
    by_cases hi : i < port.pci_num
    · simp only [hi, if_true]
      obtain ⟨tail, ht⟩ := ih (i + 1) (num + 2, argv ++ [flag_pci, port.pci_list i.toNat])
      exact ⟨[flag_pci, port.pci_list i.toNat] ++ tail, by rw [ht]; simp⟩
    · simp only [hi, if_false]
      exact ⟨[], by simp⟩

theorem dpdk_append_pci_prefix (cfg : config) (argv : List String) (flag_pci : String) :
    ∃ tail, (dpdk_append_pci cfg argv flag_pci).2 = argv ++ tail := by
  unfold dpdk_append_pci
  have hgen : ∀ (ports : List netif_port) (r : Int × List String),
      ∃ tail, (ports.foldl
        (fun r port =>
          if port.is_vdev then (r.1 + 1, r.2 ++ [port.vdev_param])
          else dpdk_append_pci_loop port flag_pci port.pci_num.toNat 0 r) r).2
        = r.2 ++ tail := by
    intro ports
    induction ports with
    | nil => intro r; exact ⟨[], by simp⟩
    | cons port ports ih =>
      intro r
      simp only [List.foldl_cons]
      by_cases hv : port.is_vdev = true
      · simp only [hv, if_true]
        obtain ⟨tail, ht⟩ := ih (r.1 + 1, r.2 ++ [port.vdev_param])
        exact ⟨[port.vdev_param] ++ tail, by rw [ht]; simp⟩
      · simp only [hv, Bool.false_eq_true, if_false]
        obtain ⟨t1, h1⟩ := dpdk_append_pci_loop_prefix port flag_pci port.pci_num.toNat 0 r
        obtain ⟨tail, ht⟩ :=
          ih (dpdk_append_pci_loop port flag_pci port.pci_num.toNat 0 r)
        exact ⟨t1 ++ tail, by rw [ht, h1]; simp⟩
  exact hgen cfg.ports (0, argv)

/-- C8: when the formatted flag `--socket-mem=<cfg.socket_mem>` has length
at least `RTE_ARG_LEN` (a buffer size that exceeds the bare flag name),
`dpdk_init` returns -1 and the only calls it has made are the two `printf`
failure messages: no `rte_eal_init`, no `rte_pdump_init`, no
`port_init_all`, `port_start_all`, `kni_start`, `flow_init` or `tick_init`. -/
theorem dpdk_init_socket_mem_overflow (env : Env) (cfg : config) (argv0 : String)
    (hbare : "--socket-mem=".length < env.RTE_ARG_LEN)
    (hover : env.RTE_ARG_LEN ≤ ("--socket-mem=" ++ cfg.socket_mem).length) :
    dpdk_init env cfg argv0
        = (-1, [DpdkEvent.printf "dpdk_set_socket_mem fail\n",
                DpdkEvent.printf "dpdk_eal_init fail\n"]) ∧
      (∀ argc argv, DpdkEvent.rte_eal_init argc argv ∉ (dpdk_init env cfg argv0).2) ∧
      DpdkEvent.rte_pdump_init ∉ (dpdk_init env cfg argv0).2 ∧
      DpdkEvent.port_init_all ∉ (dpdk_init env cfg argv0).2 ∧
      DpdkEvent.port_start_all ∉ (dpdk_init env cfg argv0).2 ∧
      DpdkEvent.kni_start ∉ (dpdk_init env cfg argv0).2 ∧
      DpdkEvent.flow_init ∉ (dpdk_init env cfg argv0).2 ∧
      (∀ t, DpdkEvent.tick_init t ∉ (dpdk_init env cfg argv0).2) := by
  have hsm := dpdk_set_socket_mem_overflow env cfg "" "" hbare hover
  have heal : dpdk_eal_init env cfg argv0
      = (-1, [DpdkEvent.printf "dpdk_set_socket_mem fail\n"]) := by
    unfold dpdk_eal_init
    simp only [hsm]
    rfl
  have hinit : dpdk_init env cfg argv0
      = (-1, [DpdkEvent.printf "dpdk_set_socket_mem fail\n",
              DpdkEvent.printf "dpdk_eal_init fail\n"]) := by
    unfold dpdk_init
    simp only [heal]
    rfl
  rw [hinit]
  simp

/-- Witness of `dpdk_init_socket_mem_overflow`: `RTE_ARG_LEN = 64` and a
socket-memory string of 69 characters. -/
theorem dpdk_init_socket_mem_overflow_witness :
    "--socket-mem=".length < env_ok.RTE_ARG_LEN ∧
      env_ok.RTE_ARG_LEN ≤ ("--socket-mem=" ++ cfg_long_socket_mem.socket_mem).length ∧
      dpdk_init env_ok cfg_long_socket_mem "dperf"
        = (-1, [DpdkEvent.printf "dpdk_set_socket_mem fail\n",
                DpdkEvent.printf "dpdk_eal_init fail\n"]) :=
  ⟨by decide, by decide,
    (dpdk_init_socket_mem_overflow env_ok cfg_long_socket_mem "dperf" (by decide)
      (by decide)).1⟩

/-- C6, as stated, fails when no socket-memory string is configured: with
an empty file prefix and process id 1234, the vector handed to
`rte_eal_init` holds two empty strings in the slots of the socket-memory and
file-prefix flags, no `--file-prefix=dperf-1234`, and no entry at all that
starts with `--file-prefix=`. -/
theorem dpdk_eal_init_plain_has_no_file_prefix_flag :
    cfg_plain.socket_mem = "" ∧ cfg_plain.file_prefix = "" ∧ env_ok.getpid = 1234 ∧
      dpdk_eal_init env_ok cfg_plain "dperf"
        = (0, [DpdkEvent.rte_eal_init 6
            ["dperf", "--lcores=0@(2),1@(4),2@(6)", "", "", "--log-level=7",
              "--no-telemetry"]]) ∧
      ("--file-prefix=dperf-" ++ fmt_d env_ok.getpid)
        ∉ ["dperf", "--lcores=0@(2),1@(4),2@(6)", "", "", "--log-level=7",
            "--no-telemetry"] ∧
      ∀ a ∈ ["dperf", "--lcores=0@(2),1@(4),2@(6)", "", "", "--log-level=7",
            "--no-telemetry"], "--file-prefix=".data.isPrefixOf a.data = false := by
  decide

/-- C6 (amended): when a socket-memory string is configured and both
formatted flags fit in `RTE_ARG_LEN`, `dpdk_eal_init` calls `rte_eal_init`
with a vector whose entry 3 is the file-prefix flag:
`--file-prefix=dperf-<process id>` when the configured file prefix is empty,
`--file-prefix=<configured value>` otherwise (and whose entry 2 is the
socket-memory flag). -/
theorem dpdk_eal_init_file_prefix_flag (env : Env) (cfg : config) (argv0 : String)
    (hsm : 0 < cfg.socket_mem.length)
    (hfit1 : ("--socket-mem=" ++ cfg.socket_mem).length < env.RTE_ARG_LEN)
    (hfit2 : (if cfg.file_prefix = "" then "--file-prefix=dperf-" ++ fmt_d env.getpid
        else "--file-prefix=" ++ cfg.file_prefix).length < env.RTE_ARG_LEN) :
    ∃ argc argv, DpdkEvent.rte_eal_init argc argv ∈ (dpdk_eal_init env cfg argv0).2 ∧
      argv[2]? = some ("--socket-mem=" ++ cfg.socket_mem) ∧
      argv[3]? = some (if cfg.file_prefix = "" then "--file-prefix=dperf-" ++ fmt_d env.getpid
        else "--file-prefix=" ++ cfg.file_prefix) ∧
      (if cfg.file_prefix = "" then "--file-prefix=dperf-" ++ fmt_d env.getpid
        else "--file-prefix=" ++ cfg.file_prefix) ∈ argv := by
  have hsmv := dpdk_set_socket_mem_ok env cfg "" "" hsm hfit1 hfit2
  obtain ⟨argv1, hA⟩ : ∃ a : List String, a =
      [argv0, dpdk_set_lcores cfg "--lcores=", "--socket-mem=" ++ cfg.socket_mem,
        (if cfg.file_prefix = "" then "--file-prefix=dperf-" ++ fmt_d env.getpid
          else "--file-prefix=" ++ cfg.file_prefix),
        "--log-level=" ++ fmt_d cfg.log_level] ++
      (if env.rte_version_ge_20 then ["--no-telemetry"] else []) ++
      (if cfg.no_cpi then ["--no-pci"] else []) := ⟨_, rfl⟩
  obtain ⟨tail, htail⟩ := dpdk_append_pci_prefix cfg argv1
    (if env.rte_version_ge_20 then "-a" else "-w")
  refine ⟨(argv1.length : Int) +
      (dpdk_append_pci cfg argv1 (if env.rte_version_ge_20 then "-a" else "-w")).1,
    (dpdk_append_pci cfg argv1 (if env.rte_version_ge_20 then "-a" else "-w")).2,
    ?_, ?_, ?_, ?_⟩
  · subst hA
    have key : ∀ (c : Prop) [Decidable c] (e : DpdkEvent) (x y : Int × List DpdkEvent),
        e ∈ x.2 → e ∈ y.2 → e ∈ (if c then x else y).2 := by
      intro c _ e x y hx hy
      split <;> assumption
    unfold dpdk_eal_init
    simp only [hsmv, lt_self_iff_false, if_false]
    refine key _ _ _ _ ?_ ?_
    · exact List.mem_append_left _ (List.mem_append_right _ (List.mem_singleton_self _))
    · exact List.mem_append_right _ (List.mem_singleton_self _)
  · rw [htail, hA]
    simp
  · rw [htail, hA]
    simp
  · rw [htail, hA]
    simp

/-- Witness of `dpdk_eal_init_file_prefix_flag`: socket memory `1024,1024`,
no configured file prefix, process id 1234. -/
theorem dpdk_eal_init_file_prefix_flag_witness :
    0 < cfg_socket_mem.socket_mem.length ∧
      dpdk_eal_init env_ok cfg_socket_mem "dperf"
        = (0, [DpdkEvent.rte_eal_init 6
            ["dperf", "--lcores=0@(2),1@(4),2@(6)", "--socket-mem=1024,1024",
              "--file-prefix=dperf-1234", "--log-level=7", "--no-telemetry"]]) ∧
      ∃ argc argv,
        DpdkEvent.rte_eal_init argc argv ∈ (dpdk_eal_init env_ok cfg_socket_mem "dperf").2 ∧
        argv[2]? = some ("--socket-mem=" ++ cfg_socket_mem.socket_mem) ∧
        argv[3]? = some (if cfg_socket_mem.file_prefix = "" then
            "--file-prefix=dperf-" ++ fmt_d env_ok.getpid
          else "--file-prefix=" ++ cfg_socket_mem.file_prefix) ∧
        (if cfg_socket_mem.file_prefix = "" then "--file-prefix=dperf-" ++ fmt_d env_ok.getpid
          else "--file-prefix=" ++ cfg_socket_mem.file_prefix) ∈ argv :=
  ⟨by decide, by decide,
    dpdk_eal_init_file_prefix_flag env_ok cfg_socket_mem "dperf" (by decide) (by decide)
      (by decide)⟩

end Dperf
